import Mathlib

/-!
Verification of the tokensync repository (Go): a single-flight, cross-process
token cache and refresh coordinator.

The embedding below translates the `tk` package sources:
- `Token` values are observed only through `String()`, `Created()`, `Expires()`
  and `Validate()`; a token value is therefore modelled as the record of those
  four observations (`TokenData`).  A Go `Token` interface value that may be
  nil is `Option TokenData`.
- Go errors are modelled by the inductive `Err`.  `fmt.Errorf("%w: %s", s, e)`
  which wraps sentinel `s` and textually contains `e` is `wrapErr s e`
  (`e` may be the nil error).
- The external collaborators `Client` and `Repo` are consumed through their
  call outcomes only; one execution of `TokenKeeper.Token()` makes at most one
  `Client.NewToken` call, one `Client.RefreshToken` call, and two
  `Repo.GetToken` calls (the unguarded fast path and the lock-guarded
  re-check).  The outcomes of those calls are supplied by an environment
  `Env`, which also fixes the value of `time.Now()` for the call.  The errors
  returned by `Repo.Lock`, `Repo.Unlock` and `Repo.StoreToken` are present in
  `Env` but the keeper code discards/logs them without branching, exactly as
  the source does (`_ = k.repo.Lock(...)`; `storeToken` only logs).
- Every external call made is recorded as an `Event` in an execution trace,
  in source order; deferred `Repo.Unlock` calls are appended at the exit of
  the function that deferred them (Go runs deferred calls on panic unwinding
  too, which the model reproduces).
- Calling a method on a nil Go interface panics; an execution outcome is
  therefore `Outcome.ret v` or `Outcome.panicked`.
- `time.Time` is modelled as `Nat`; `t.Before(u)` is `t < u`.

The process-local mutex `k.lock` is held for the whole body of `Token()`, so
within one process concurrent calls execute their bodies in some sequential
order; the sequential iteration `runCalls` is the faithful in-process model.
Across processes, every shared-state access of the empty-cache path
(`tokenFromRepo`, and the re-check / fetch / store block of `getToken`) is
guarded by the single distributed `Repo` lock, so a cross-process execution
interleaves those lock-guarded sections atomically; `Step`/`Reach` model that
interleaving.
-/

/-- Go errors, as the keeper observes and constructs them.  `clientErr`,
`repoErr` and `tokenErr` are the opaque error families produced by a Client
implementation, a Repo implementation, and a token's own `Validate`;
`wrap s e` is `fmt.Errorf("%w: %s", s, e)` and `wrapNil s` the same with a nil
inner error. -/
inductive Err where
  | clientIsNil
  | clientNewTokenFailed
  | clientRefreshTokenFailed
  | noTokenSet
  | tokenExpired
  | clientErr (msg : String)
  | repoErr (msg : String)
  | tokenErr (msg : String)
  | wrap (sentinel inner : Err)
  | wrapNil (sentinel : Err)
deriving DecidableEq

/-- `fmt.Errorf("%w: %s", sentinel, err)` where `err : error` may be nil. -/
def wrapErr (s : Err) : Option Err → Err
  | some e => Err.wrap s e
  | none => Err.wrapNil s

/-- A token value: the four observations of the `Token` interface
(`String()`, `Created()`, `Expires()`, `Validate()`). -/
structure TokenData where
  str : String
  created : Nat
  expires : Nat
  validateErr : Option Err
deriving DecidableEq

/-- `invalidToken` / `newInvalidToken(err)`: carries only the error; its
`String()` is empty and `Created() = Expires() = time.Now()`. -/
def invalidToken (e : Err) (now : Nat) : TokenData :=
  { str := "", created := now, expires := now, validateErr := some e }

/-- One external call made by the keeper during a `Token()` execution. -/
inductive Event where
  | repoLock
  | repoUnlock
  | repoGet
  | repoStore (t : Option TokenData)
  | clientNew
  | clientRefresh
deriving DecidableEq

/-- The outcomes the environment supplies for the external calls that one
`Token()` execution can make, plus the current time. -/
structure Env where
  now : Nat
  repoGetFast : Option TokenData × Option Err
  repoGetLocked : Option TokenData × Option Err
  newTokenRes : Option TokenData × Option Err
  refreshRes : Option TokenData × Option Err
  repoLockErr : Option Err
  repoStoreErr : Option Err

/-- `TokenKeeper`: the cached token plus whether the `client` and `repo`
interface fields are non-nil.  (The logger is diagnostic only and the local
mutex is modelled by the atomicity of `Token`.) -/
structure TokenKeeper where
  hasClient : Bool
  hasRepo : Bool
  token : Option TokenData
deriving DecidableEq

/-- `NewTokenKeeper(client)`: no repo, no cached token. -/
def NewTokenKeeper (hasClient : Bool) : TokenKeeper :=
  { hasClient := hasClient, hasRepo := false, token := none }

/-- `WithRepo`. -/
def TokenKeeper.WithRepo (k : TokenKeeper) : TokenKeeper :=
  { k with hasRepo := true }

/-- The result of running Go code that can panic. -/
inductive Outcome (α : Type) where
  | ret (a : α)
  | panicked
deriving DecidableEq

/-- `validateToken`: nil check, then `t.Validate()`, then
`t.Expires().Before(time.Now())`. -/
def validateToken (t : Option TokenData) (now : Nat) : Option Err :=
  match t with
  | none => some Err.noTokenSet
  | some tok =>
    match tok.validateErr with
    | some e => some e
    | none => if tok.expires < now then some Err.tokenExpired else none

/-- `storeToken`: store into the repo when attached (a store error is only
logged), then set the cached token. -/
def storeToken (k : TokenKeeper) (t : Option TokenData) :
    TokenKeeper × List Event :=
  if k.hasRepo then ({ k with token := t }, [Event.repoStore t])
  else ({ k with token := t }, [])

/-- `tokenFromRepo`: nil-repo check; `Lock`; deferred `Unlock`; `GetToken`;
a read error yields nil, otherwise the read token (even a nil one) is
returned.  The `Lock` error is discarded by the source. -/
def tokenFromRepo (k : TokenKeeper) (env : Env) :
    Option TokenData × List Event :=
  if k.hasRepo then
    match env.repoGetFast with
    | (_, some _) => (none, [Event.repoLock, Event.repoGet, Event.repoUnlock])
    | (t, none) => (t, [Event.repoLock, Event.repoGet, Event.repoUnlock])
  else (none, [])

/-- `tokenFromClient`: nil-client check; `client.NewToken`; on success the
token is stored (into repo and cache) only when its own `Validate()` passes.
A nil token with a nil error makes `t.Validate()` dereference a nil
interface: panic. -/
def tokenFromClient (k : TokenKeeper) (env : Env) :
    Outcome (Option TokenData × Option Err) × TokenKeeper × List Event :=
  if k.hasClient then
    match env.newTokenRes with
    | (_, some e) => (Outcome.ret (none, some e), k, [Event.clientNew])
    | (none, none) => (Outcome.panicked, k, [Event.clientNew])
    | (some t, none) =>
      if t.validateErr = none then
        let s := storeToken k (some t)
        (Outcome.ret (some t, none), s.1, Event.clientNew :: s.2)
      else (Outcome.ret (some t, none), k, [Event.clientNew])
  else (Outcome.ret (none, some Err.clientIsNil), k, [])

/-- `getToken` (called only when the cache is empty): repo fast path; then,
with a repo attached, `Lock`, deferred `Unlock`, in-memory re-check, locked
`GetToken` re-check; only if both miss, `tokenFromClient` (still under the
lock - the deferred `Unlock` runs at `getToken`'s exit). -/
def getToken (k : TokenKeeper) (env : Env) :
    Outcome (Option TokenData × Option Err) × TokenKeeper × List Event :=
  match tokenFromRepo k env with
  | (some t, evs0) => (Outcome.ret (some t, none), k, evs0)
  | (none, evs0) =>
    if k.hasRepo then
      match k.token with
      | some t =>
        (Outcome.ret (some t, none), k, evs0 ++ [Event.repoLock, Event.repoUnlock])
      | none =>
        match env.repoGetLocked with
        | (t, none) =>
          (Outcome.ret (t, none), k,
            evs0 ++ [Event.repoLock, Event.repoGet, Event.repoUnlock])
        | (_, some _) =>
          let s := tokenFromClient k env
          (s.1, s.2.1,
            evs0 ++ [Event.repoLock, Event.repoGet] ++ s.2.2 ++ [Event.repoUnlock])
    else
      let s := tokenFromClient k env
      (s.1, s.2.1, evs0 ++ s.2.2)

/-- The second half of `Token()`: validate the cached token; when invalid,
`client.RefreshToken` (a nil client is dereferenced here: panic); a refresh
error yields an invalid token wrapping `ErrClientRefreshTokenFailed`, leaving
the cache untouched; a refresh success is stored and returned. -/
def tokenPhase2 (k : TokenKeeper) (env : Env) :
    Outcome (Option TokenData) × TokenKeeper × List Event :=
  match validateToken k.token env.now with
  | none => (Outcome.ret k.token, k, [])
  | some _ =>
    if k.hasClient then
      match env.refreshRes with
      | (_, some e) =>
        (Outcome.ret (some (invalidToken
            (wrapErr Err.clientRefreshTokenFailed (some e)) env.now)),
          k, [Event.clientRefresh])
      | (t, none) =>
        let s := storeToken k t
        (Outcome.ret s.1.token, s.1, Event.clientRefresh :: s.2)
    else (Outcome.panicked, k, [])

/-- `TokenKeeper.Token()`: under the local mutex, populate an empty cache via
`getToken` (a nil result yields an invalid token wrapping
`ErrClientNewTokenFailed`), then validate / refresh, and return the cached
token. -/
def TokenKeeper.Token (k : TokenKeeper) (env : Env) :
    Outcome (Option TokenData) × TokenKeeper × List Event :=
  match k.token with
  | some _ => tokenPhase2 k env
  | none =>
    match getToken k env with
    | (Outcome.panicked, k1, evs1) => (Outcome.panicked, k1, evs1)
    | (Outcome.ret (none, e), k1, evs1) =>
      (Outcome.ret (some (invalidToken
          (wrapErr Err.clientNewTokenFailed e) env.now)), k1, evs1)
    | (Outcome.ret (some t, _), k1, evs1) =>
      let k2 : TokenKeeper := { k1 with token := some t }
      let s := tokenPhase2 k2 env
      (s.1, s.2.1, evs1 ++ s.2.2)

/-- `storesUnderLock evs 0 = true` holds when every `repoStore` event in the
trace occurs while the distributed lock is held (the second argument tracks
the current lock depth, which in this code is always 0 or 1). -/
def storesUnderLock : List Event → Nat → Bool
  | [], _ => true
  | Event.repoLock :: rest, _ => storesUnderLock rest 1
  | Event.repoUnlock :: rest, _ => storesUnderLock rest 0
  | Event.repoStore _ :: rest, d => d == 1 && storesUnderLock rest d
  | _ :: rest, d => storesUnderLock rest d

/-- `lockCheck evs 0 = true` holds when the `repoLock`/`repoUnlock` events of
the trace are strictly alternating, starting with `repoLock` and ending
released: every `Lock` call is matched by exactly one later `Unlock` call,
no `Unlock` happens without a pending `Lock`, and the trace ends with the
lock released. -/
def lockCheck : List Event → Nat → Bool
  | [], d => d == 0
  | Event.repoLock :: rest, d => d == 0 && lockCheck rest 1
  | Event.repoUnlock :: rest, d => d == 1 && lockCheck rest 0
  | _ :: rest, d => lockCheck rest d

-- The PgRepo reference implementation.

/-- `DefaultTable`. -/
def DefaultTable : String := "token"

/-- `PgRepo`: the table name and the advisory-lock number used by
`pg_advisory_lock($1)` / `pg_advisory_unlock($1)`. -/
structure PgRepo where
  table : String
  lockNumber : Nat
deriving DecidableEq

/-- `rand.Intn(n)`: returns a value in `[0, n)` drawn from the process-global
pseudo-random source; the draw is an explicit input of the model. -/
def randIntn (draw n : Nat) : Nat := draw % n

/-- `NewPgRepo` (with a non-nil pool): default table, and a lock number drawn
from `rand.Intn(100)` at construction. -/
def NewPgRepo (draw : Nat) : PgRepo :=
  { table := DefaultTable, lockNumber := randIntn draw 100 }

/-- The advisory-lock key an instance passes to `pg_advisory_lock` /
`pg_advisory_unlock` in `PgRepo.Lock` / `PgRepo.Unlock`. -/
def PgRepo.lockKey (r : PgRepo) : Nat := r.lockNumber

/-- Two PgRepo instances on the same database mutually exclude each other's
`Lock`/`Unlock` exactly when they use the same advisory-lock key. -/
def advisoryLocksConflict (a b : PgRepo) : Prop := a.lockKey = b.lockKey

instance (a b : PgRepo) : Decidable (advisoryLocksConflict a b) :=
  inferInstanceAs (Decidable (a.lockKey = b.lockKey))

-- Concrete scenario values used by several claims.

/-- A structurally valid token whose expiry (1) lies in the past of `now = 5`. -/
def staleTok : TokenData :=
  { str := "stale", created := 0, expires := 1, validateErr := none }

/-- A token valid at `now = 5`. -/
def freshTok : TokenData :=
  { str := "fresh", created := 5, expires := 9, validateErr := none }

-- Sanity checks of the embedding on the scenarios of the repository's tests.

-- "should return same token each time": a cached valid token is returned
-- with no external calls.
example :
    (TokenKeeper.Token
      { hasClient := true, hasRepo := false,
        token := some { str := "a", created := 0, expires := 9, validateErr := none } }
      { now := 1, repoGetFast := (none, some (Err.repoErr "n")),
        repoGetLocked := (none, some (Err.repoErr "n")),
        newTokenRes := (none, some (Err.clientErr "n")),
        refreshRes := (none, some (Err.clientErr "n")),
        repoLockErr := none, repoStoreErr := none }) =
    (Outcome.ret (some { str := "a", created := 0, expires := 9, validateErr := none }),
      { hasClient := true, hasRepo := false,
        token := some { str := "a", created := 0, expires := 9, validateErr := none } },
      []) := by decide

-- "get token from repo": with an empty cache and a usable repo token, the
-- repo token is adopted and the client is never called.
example :
    (TokenKeeper.Token
      { hasClient := true, hasRepo := true, token := none }
      { now := 1, repoGetFast :=
          (some { str := "r", created := 0, expires := 9, validateErr := none }, none),
        repoGetLocked := (none, some (Err.repoErr "n")),
        newTokenRes := (some { str := "c", created := 1, expires := 9, validateErr := none }, none),
        refreshRes := (none, some (Err.clientErr "n")),
        repoLockErr := none, repoStoreErr := none }) =
    (Outcome.ret (some { str := "r", created := 0, expires := 9, validateErr := none }),
      { hasClient := true, hasRepo := true,
        token := some { str := "r", created := 0, expires := 9, validateErr := none } },
      [Event.repoLock, Event.repoGet, Event.repoUnlock]) := by decide

-- "keeper stores new tokens into repo": empty cache, empty repo: the client
-- token is fetched under the distributed lock and stored before the unlock.
example :
    (TokenKeeper.Token
      { hasClient := true, hasRepo := true, token := none }
      { now := 1, repoGetFast := (none, some (Err.repoErr "no token")),
        repoGetLocked := (none, some (Err.repoErr "no token")),
        newTokenRes := (some { str := "c", created := 1, expires := 9, validateErr := none }, none),
        refreshRes := (none, some (Err.clientErr "n")),
        repoLockErr := none, repoStoreErr := none }) =
    (Outcome.ret (some { str := "c", created := 1, expires := 9, validateErr := none }),
      { hasClient := true, hasRepo := true,
        token := some { str := "c", created := 1, expires := 9, validateErr := none } },
      [Event.repoLock, Event.repoGet, Event.repoUnlock,
        Event.repoLock, Event.repoGet, Event.clientNew,
        Event.repoStore (some { str := "c", created := 1, expires := 9, validateErr := none }),
        Event.repoUnlock]) := by decide

-- Environments for the concrete claim scenarios.

/-- Environment: the repo fast path yields `staleTok`; a refresh succeeds
with `freshTok`; `now = 5`. -/
def envRepoStaleRefreshOk : Env :=
  { now := 5, repoGetFast := (some staleTok, none),
    repoGetLocked := (none, some (Err.repoErr "no token")),
    newTokenRes := (some freshTok, none),
    refreshRes := (some freshTok, none),
    repoLockErr := none, repoStoreErr := none }

/-- Environment: the repo fast path yields `staleTok`; the refresh fails;
`now = 5`. -/
def envRepoStaleRefreshBad : Env :=
  { now := 5, repoGetFast := (some staleTok, none),
    repoGetLocked := (none, some (Err.repoErr "no token")),
    newTokenRes := (some freshTok, none),
    refreshRes := (none, some (Err.clientErr "boom")),
    repoLockErr := none, repoStoreErr := none }

/-- A keeper with client and repo attached and an empty cache. -/
def keeperEmptyWithRepo : TokenKeeper :=
  { hasClient := true, hasRepo := true, token := none }

/-- A keeper with client and repo attached whose cache holds `staleTok`. -/
def keeperStaleWithRepo : TokenKeeper :=
  { hasClient := true, hasRepo := true, token := some staleTok }

/-- Claim C2 (code_bug evaluation): `Token()` is not total.  On a keeper whose
`client` field is nil but whose repo yields a token that is expired at the
current time, the refresh branch of `Token()` calls `k.client.RefreshToken`
on the nil interface and the execution panics instead of returning an invalid
token. -/
theorem C2_nil_client_refresh_panics :
    (TokenKeeper.Token { hasClient := false, hasRepo := true, token := none }
        envRepoStaleRefreshOk).1 = Outcome.panicked := by
  decide

/-- Claim C9 (code_bug evaluation): the advisory-lock identifier is not fixed.
`NewPgRepo` draws `lockNumber` from `rand.Intn(100)` per instance, so two
instances built from different draws (here 81 and 87) pass different keys to
`pg_advisory_lock` and their `Lock`/`Unlock` do not mutually exclude. -/
theorem C9_lock_number_not_fixed :
    (NewPgRepo 81).lockKey ≠ (NewPgRepo 87).lockKey ∧
    ¬ advisoryLocksConflict (NewPgRepo 81) (NewPgRepo 87) := by
  decide

/-- Claim C3 counterexample: on the refresh-success path the keeper calls
`Repo.StoreToken` without ever calling `Repo.Lock`: the whole trace of the
`Token()` call is `[clientRefresh, repoStore freshTok]`, with no lock event,
so this shared-token write is not performed under the distributed lock. -/
theorem C3_counterexample :
    (keeperStaleWithRepo.Token envRepoStaleRefreshOk).2.2 =
      [Event.clientRefresh, Event.repoStore (some freshTok)] ∧
    Event.repoLock ∉ (keeperStaleWithRepo.Token envRepoStaleRefreshOk).2.2 := by
  decide

/-- Claim C4 counterexample: with an empty cache, a repo fast path yielding a
token that is not usable at the current time (`staleTok`, expired at
`now = 5`) and a failing refresh, the keeper adopts the unusable repo token
as its cached token (it is the keeper's cached token after the call), never
calls `Client.NewToken`, and instead calls `Client.RefreshToken` - contrary
to the claim that an unusable repo token is not adopted and `Client.NewToken`
is used. -/
theorem C4_counterexample :
    validateToken (some staleTok) 5 ≠ none ∧
    (keeperEmptyWithRepo.Token envRepoStaleRefreshBad).2.1.token = some staleTok ∧
    (keeperEmptyWithRepo.Token envRepoStaleRefreshBad).2.2.count Event.clientNew = 0 ∧
    Event.clientRefresh ∈ (keeperEmptyWithRepo.Token envRepoStaleRefreshBad).2.2 := by
  decide

/-- A token whose expiry equals the probe time `now = 5` and whose own
validation passes. -/
def edgeTok : TokenData :=
  { str := "edge", created := 0, expires := 5, validateErr := none }

/-- Claim C5 counterexample: a token whose expiry equals the current time is
treated as valid by `validateToken` (`Expires().Before(now)` is a strict
comparison), and `Token()` returns it unchanged with no external call - in
particular no refresh - contrary to the claim that expiry must be strictly
after `now`. -/
theorem C5_counterexample :
    validateToken (some edgeTok) 5 = none ∧
    (TokenKeeper.Token
        { hasClient := true, hasRepo := false, token := some edgeTok }
        envRepoStaleRefreshOk) =
      (Outcome.ret (some edgeTok),
        { hasClient := true, hasRepo := false, token := some edgeTok }, []) := by
  decide

-- Trace-shape helper lemmas.

/-- No `repoLock`/`repoUnlock` event occurs in the list. -/
def lockFree : List Event → Bool
  | [] => true
  | Event.repoLock :: _ => false
  | Event.repoUnlock :: _ => false
  | _ :: rest => lockFree rest

theorem lockCheck_nil (d : Nat) : lockCheck [] d = (d == 0) := rfl

theorem lockCheck_lock (rest : List Event) (d : Nat) :
    lockCheck (Event.repoLock :: rest) d = (d == 0 && lockCheck rest 1) := rfl

theorem lockCheck_unlock (rest : List Event) (d : Nat) :
    lockCheck (Event.repoUnlock :: rest) d = (d == 1 && lockCheck rest 0) := rfl

theorem lockCheck_get (rest : List Event) (d : Nat) :
    lockCheck (Event.repoGet :: rest) d = lockCheck rest d := rfl

theorem lockCheck_store (t : Option TokenData) (rest : List Event) (d : Nat) :
    lockCheck (Event.repoStore t :: rest) d = lockCheck rest d := rfl

theorem lockCheck_new (rest : List Event) (d : Nat) :
    lockCheck (Event.clientNew :: rest) d = lockCheck rest d := rfl

theorem lockCheck_refresh (rest : List Event) (d : Nat) :
    lockCheck (Event.clientRefresh :: rest) d = lockCheck rest d := rfl

theorem lockCheck_lockFree_append (xs ys : List Event) (d : Nat)
    (h : lockFree xs = true) : lockCheck (xs ++ ys) d = lockCheck ys d := by
  induction xs generalizing d with
  | nil => rfl
  | cons e rest ih =>
    cases e <;> simp only [lockFree] at h <;>
      simp only [List.cons_append, lockCheck_get, lockCheck_store, lockCheck_new,
        lockCheck_refresh] <;> first
      | exact ih d h
      | cases h

theorem lockCheck_append (xs ys : List Event) (d : Nat)
    (hx : lockCheck xs d = true) (hy : lockCheck ys 0 = true) :
    lockCheck (xs ++ ys) d = true := by
  induction xs generalizing d with
  | nil =>
    simp only [lockCheck_nil, Nat.beq_eq_true_eq] at hx
    subst hx
    simpa using hy
  | cons e rest ih =>
    cases e <;>
      simp only [List.cons_append, lockCheck_lock, lockCheck_unlock, lockCheck_get,
        lockCheck_store, lockCheck_new, lockCheck_refresh, Bool.and_eq_true] at hx ⊢ <;>
      first
      | exact ih d hx
      | exact ⟨hx.1, ih _ hx.2⟩

/-- The trace of `tokenFromClient` never touches the distributed lock. -/
theorem tokenFromClient_lockFree (k : TokenKeeper) (env : Env) :
    lockFree (tokenFromClient k env).2.2 = true := by
  unfold tokenFromClient storeToken
  split
  · split
    · rfl
    · rfl
    · split
      · split <;> rfl
      · rfl
  · rfl

/-- The trace of `tokenPhase2` never touches the distributed lock. -/
theorem tokenPhase2_lockFree (k : TokenKeeper) (env : Env) :
    lockFree (tokenPhase2 k env).2.2 = true := by
  unfold tokenPhase2 storeToken
  split
  · rfl
  · split
    · split
      · rfl
      · split <;> rfl
    · rfl

theorem lockFree_no_lock (xs : List Event) (h : lockFree xs = true) :
    Event.repoLock ∉ xs := by
  induction xs with
  | nil => simp
  | cons e rest ih =>
    cases e <;> simp only [lockFree] at h <;> simp_all

theorem lockFree_lockCheck (xs : List Event) (h : lockFree xs = true) (d : Nat) :
    lockCheck xs d = (d == 0) := by
  have h2 := lockCheck_lockFree_append xs [] d h
  simpa using h2

/-- Locks in the trace of the repo fast path are well-nested and released. -/
theorem tokenFromRepo_lockCheck (k : TokenKeeper) (env : Env) :
    lockCheck (tokenFromRepo k env).2 0 = true := by
  unfold tokenFromRepo
  split
  · split <;> rfl
  · rfl

/-- Locks in the trace of `getToken` are well-nested and fully released. -/
theorem getToken_lockCheck (k : TokenKeeper) (env : Env) :
    lockCheck (getToken k env).2.2 0 = true := by
  have h0 := tokenFromRepo_lockCheck k env
  unfold getToken
  rcases htr : tokenFromRepo k env with ⟨t0, evs0⟩
  rw [htr] at h0
  cases t0 with
  | some t => simpa using h0
  | none =>
    by_cases hr : k.hasRepo = true
    · simp only [hr, if_true]
      cases ht : k.token with
      | some t =>
        exact lockCheck_append _ _ _ h0 rfl
      | none =>
        rcases hgl : env.repoGetLocked with ⟨glt, gle⟩
        cases gle with
        | none =>
          exact lockCheck_append _ _ _ h0 rfl
        | some e =>
          show lockCheck (evs0 ++ [Event.repoLock, Event.repoGet] ++
            (tokenFromClient k env).2.2 ++ [Event.repoUnlock]) 0 = true
          rw [List.append_assoc, List.append_assoc]
          refine lockCheck_append _ _ _ h0 ?_
          show lockCheck (Event.repoLock :: Event.repoGet ::
            ((tokenFromClient k env).2.2 ++ [Event.repoUnlock])) 0 = true
          rw [lockCheck_lock, lockCheck_get,
            lockCheck_lockFree_append _ _ _ (tokenFromClient_lockFree k env)]
          rfl
    · simp only [hr, if_false]
      refine lockCheck_append _ _ _ h0 ?_
      rw [lockFree_lockCheck _ (tokenFromClient_lockFree k env)]
      rfl

/-- Claim C7: every acquisition of the distributed lock during a `Token()`
execution is matched by exactly one `Repo.Unlock` before the execution ends,
on every path (success, issuance failure, repo failure, and even panic
unwinding, since the unlocks are deferred): the `repoLock`/`repoUnlock`
events of the trace alternate strictly and end released, so `Token()` never
returns while still holding the distributed lock. -/
theorem C7_lock_release_balanced (k : TokenKeeper) (env : Env) :
    lockCheck (k.Token env).2.2 0 = true := by
  unfold TokenKeeper.Token
  cases ht : k.token with
  | some t =>
    rw [lockFree_lockCheck _ (tokenPhase2_lockFree k env)]
    rfl
  | none =>
    have hg := getToken_lockCheck k env
    rcases hgt : getToken k env with ⟨r, k1, evs1⟩
    rw [hgt] at hg
    rcases r with ⟨t0, e⟩ | _
    · cases t0 with
      | none => simpa using hg
      | some t =>
        refine lockCheck_append _ _ _ (by simpa using hg) ?_
        rw [lockFree_lockCheck _ (tokenPhase2_lockFree _ env)]
        rfl
    · simpa using hg

-- Store-under-lock helper lemmas.

theorem storesUnderLock_tokenFromRepo (k : TokenKeeper) (env : Env) (d : Nat) :
    storesUnderLock (tokenFromRepo k env).2 d = true := by
  unfold tokenFromRepo
  split
  · split <;> rfl
  · rfl

theorem tokenFromRepo_trace_of_hasRepo (k : TokenKeeper) (env : Env)
    (hr : k.hasRepo = true) :
    (tokenFromRepo k env).2 = [Event.repoLock, Event.repoGet, Event.repoUnlock] := by
  rcases hgf : env.repoGetFast with ⟨gf1, gf2⟩
  cases gf2 <;> simp [tokenFromRepo, hr, hgf]

theorem storesUnderLock_tokenFromClient_append (k : TokenKeeper) (env : Env)
    (ys : List Event) :
    storesUnderLock ((tokenFromClient k env).2.2 ++ ys) 1 = storesUnderLock ys 1 := by
  unfold tokenFromClient storeToken
  split
  · split
    · rfl
    · rfl
    · split
      · split <;> rfl
      · rfl
  · rfl

theorem storesUnderLock_tokenFromClient_noRepo (k : TokenKeeper) (env : Env)
    (hr : k.hasRepo = false) (d : Nat) :
    storesUnderLock (tokenFromClient k env).2.2 d = true := by
  unfold tokenFromClient storeToken
  rw [hr]
  split
  · split
    · rfl
    · rfl
    · split <;> rfl
  · rfl

/-- Every `Repo.StoreToken` call made by `getToken` (the empty-cache path)
happens while the keeper holds the distributed lock. -/
theorem getToken_storesUnderLock (k : TokenKeeper) (env : Env) :
    storesUnderLock (getToken k env).2.2 0 = true := by
  unfold getToken
  rcases htr : tokenFromRepo k env with ⟨t0, evs0⟩
  cases t0 with
  | some t =>
    have h0 := storesUnderLock_tokenFromRepo k env 0
    rw [htr] at h0
    simpa using h0
  | none =>
    by_cases hr : k.hasRepo = true
    · have hevs : evs0 = [Event.repoLock, Event.repoGet, Event.repoUnlock] := by
        have h2 := tokenFromRepo_trace_of_hasRepo k env hr
        rw [htr] at h2
        simpa using h2
      subst hevs
      simp only [hr, if_true]
      cases ht : k.token with
      | some t => rfl
      | none =>
        rcases hgl : env.repoGetLocked with ⟨glt, gle⟩
        cases gle with
        | none => rfl
        | some e =>
          show storesUnderLock ([Event.repoLock, Event.repoGet, Event.repoUnlock] ++
            [Event.repoLock, Event.repoGet] ++
            (tokenFromClient k env).2.2 ++ [Event.repoUnlock]) 0 = true
          rw [List.append_assoc]
          show storesUnderLock (Event.repoLock :: Event.repoGet :: Event.repoUnlock ::
            Event.repoLock :: Event.repoGet ::
            ((tokenFromClient k env).2.2 ++ [Event.repoUnlock])) 0 = true
          show storesUnderLock ((tokenFromClient k env).2.2 ++ [Event.repoUnlock]) 1 = true
          rw [storesUnderLock_tokenFromClient_append]
          rfl
    · have hrf : k.hasRepo = false := by
        cases hh : k.hasRepo
        · rfl
        · exact absurd hh hr
      simp only [hrf, Bool.false_eq_true, if_false]
      show storesUnderLock (evs0 ++ (tokenFromClient k env).2.2) 0 = true
      have hevs : evs0 = [] := by
        have h2 : tokenFromRepo k env = (none, []) := by
          unfold tokenFromRepo
          rw [hrf]
          rfl
        rw [htr] at h2
        simpa using h2
      subst hevs
      simpa using storesUnderLock_tokenFromClient_noRepo k env hrf 0

/-- Claim C3 amended: shared-token writes made on the empty-cache path are
performed under the distributed lock, but the write on the refresh-success
path is not: `getToken`'s `Repo.StoreToken` calls all happen while the lock
is held, whereas the refresh half of `Token()` (`tokenPhase2`) never calls
`Repo.Lock` at all, so its `Repo.StoreToken` call is made without the
distributed lock. -/
theorem C3_amended_store_locking (k : TokenKeeper) (env : Env) :
    storesUnderLock (getToken k env).2.2 0 = true ∧
    Event.repoLock ∉ (tokenPhase2 k env).2.2 :=
  ⟨getToken_storesUnderLock k env,
    lockFree_no_lock _ (tokenPhase2_lockFree k env)⟩

-- Execution-decomposition helper lemmas.

theorem tokenFromRepo_hit (k : TokenKeeper) (env : Env) (t : TokenData)
    (hr : k.hasRepo = true) (hgf : env.repoGetFast = (some t, none)) :
    tokenFromRepo k env =
      (some t, [Event.repoLock, Event.repoGet, Event.repoUnlock]) := by
  simp [tokenFromRepo, hr, hgf]

theorem tokenFromRepo_missErr (k : TokenKeeper) (env : Env) (e : Err)
    (hr : k.hasRepo = true) (hgf : env.repoGetFast.2 = some e) :
    tokenFromRepo k env =
      (none, [Event.repoLock, Event.repoGet, Event.repoUnlock]) := by
  rcases hp : env.repoGetFast with ⟨gf1, gf2⟩
  rw [hp] at hgf
  simp at hgf
  subst hgf
  simp [tokenFromRepo, hr, hp]

theorem getToken_hit (k : TokenKeeper) (env : Env) (t : TokenData)
    (hr : k.hasRepo = true) (hgf : env.repoGetFast = (some t, none)) :
    getToken k env =
      (Outcome.ret (some t, none), k,
        [Event.repoLock, Event.repoGet, Event.repoUnlock]) := by
  unfold getToken
  rw [tokenFromRepo_hit k env t hr hgf]

theorem Token_empty_adopt (k : TokenKeeper) (env : Env) (t : TokenData)
    (k1 : TokenKeeper) (evs1 : List Event) (e : Option Err)
    (htok : k.token = none)
    (hg : getToken k env = (Outcome.ret (some t, e), k1, evs1)) :
    k.Token env =
      ((tokenPhase2 { k1 with token := some t } env).1,
        (tokenPhase2 { k1 with token := some t } env).2.1,
        evs1 ++ (tokenPhase2 { k1 with token := some t } env).2.2) := by
  unfold TokenKeeper.Token
  rw [htok, hg]

theorem Token_empty_fail (k : TokenKeeper) (env : Env) (e : Option Err)
    (k1 : TokenKeeper) (evs1 : List Event)
    (htok : k.token = none)
    (hg : getToken k env = (Outcome.ret (none, e), k1, evs1)) :
    k.Token env =
      (Outcome.ret (some (invalidToken (wrapErr Err.clientNewTokenFailed e) env.now)),
        k1, evs1) := by
  unfold TokenKeeper.Token
  rw [htok, hg]

theorem Token_cached (k : TokenKeeper) (t : TokenData) (env : Env)
    (htok : k.token = some t) :
    k.Token env = tokenPhase2 k env := by
  unfold TokenKeeper.Token
  rw [htok]

theorem tokenPhase2_valid (k : TokenKeeper) (env : Env)
    (hv : validateToken k.token env.now = none) :
    tokenPhase2 k env = (Outcome.ret k.token, k, []) := by
  unfold tokenPhase2
  rw [hv]

theorem tokenPhase2_refresh_err (k : TokenKeeper) (env : Env) (er E : Err)
    (hv : validateToken k.token env.now = some er) (hc : k.hasClient = true)
    (hrr : env.refreshRes.2 = some E) :
    tokenPhase2 k env =
      (Outcome.ret (some (invalidToken (Err.wrap Err.clientRefreshTokenFailed E) env.now)),
        k, [Event.clientRefresh]) := by
  rcases hp : env.refreshRes with ⟨r1, r2⟩
  rw [hp] at hrr
  simp at hrr
  subst hrr
  unfold tokenPhase2
  rw [hv, hc]
  simp [hp, wrapErr]

theorem tokenPhase2_refresh_ok (k : TokenKeeper) (env : Env) (er : Err)
    (tnew : Option TokenData)
    (hv : validateToken k.token env.now = some er) (hc : k.hasClient = true)
    (hrr : env.refreshRes = (tnew, none)) :
    tokenPhase2 k env =
      (Outcome.ret tnew, { k with token := tnew },
        Event.clientRefresh :: (if k.hasRepo then [Event.repoStore tnew] else [])) := by
  unfold tokenPhase2 storeToken
  rw [hv]
  by_cases hr2 : k.hasRepo = true <;> simp [hc, hrr, hr2]

/-- Claim C5 amended: the keeper treats a token as valid iff its `Validate()`
succeeds and its expiry is not before the current time (`now ≤ expiry`), and
a valid cached token is returned unchanged with no external call; in
particular a token whose expiry equals the current time IS treated as valid
(the source compares with `Expires().Before(now)`, a strict order, so the
original "strictly after" boundary is off by one instant). -/
theorem C5_amended_validity (t : TokenData) (now : Nat) :
    (validateToken (some t) now = none ↔
      (t.validateErr = none ∧ now ≤ t.expires)) ∧
    (∀ (k : TokenKeeper) (env : Env), k.token = some t →
      validateToken (some t) env.now = none →
      k.Token env = (Outcome.ret (some t), k, [])) := by
  constructor
  · unfold validateToken
    cases h : t.validateErr with
    | some e => simp [h]
    | none =>
      by_cases hlt : t.expires < now
      · simp only [h, hlt, if_true, true_and]
        constructor
        · intro hcon
          cases hcon
        · intro hle
          omega
      · simp [h, hlt]
        omega
  · intro k env hk hv
    rw [Token_cached k t env hk, tokenPhase2_valid k env (by rw [hk]; exact hv), hk]

/-- Witness for the amended C5 at `freshTok` and `now = 5`. -/
theorem C5_amended_validity_witness :
    (validateToken (some freshTok) 5 = none ↔
      (freshTok.validateErr = none ∧ 5 ≤ freshTok.expires)) ∧
    TokenKeeper.Token
        { hasClient := true, hasRepo := false, token := some freshTok }
        envRepoStaleRefreshOk =
      (Outcome.ret (some freshTok),
        { hasClient := true, hasRepo := false, token := some freshTok }, []) :=
  ⟨(C5_amended_validity freshTok 5).1,
    (C5_amended_validity freshTok 5).2
      { hasClient := true, hasRepo := false, token := some freshTok }
      envRepoStaleRefreshOk rfl (by decide)⟩

/-- Claim C4 amended: when the cache is empty and a repo is attached, the
keeper adopts whatever token a successful fast-path `Repo.GetToken` yields,
with no usability check and without calling `Client.NewToken`;
`Client.NewToken` is reached only when the fast-path read misses (error or
nil token) and the lock-guarded re-check also returns an error; an adopted
token that is not usable at the current time is then handed to
`Client.RefreshToken` within the same `Token()` call. -/
theorem C4_amended_repo_adoption (k : TokenKeeper) (env : Env)
    (htok : k.token = none) (hrepo : k.hasRepo = true) :
    (∀ t, env.repoGetFast = (some t, none) →
      (getToken k env).1 = Outcome.ret (some t, none) ∧
      Event.clientNew ∉ (getToken k env).2.2) ∧
    (Event.clientNew ∈ (getToken k env).2.2 →
      (env.repoGetFast.1 = none ∨ (env.repoGetFast.2).isSome = true) ∧
      (env.repoGetLocked.2).isSome = true) ∧
    (∀ t, env.repoGetFast = (some t, none) → k.hasClient = true →
      validateToken (some t) env.now ≠ none →
      Event.clientRefresh ∈ (k.Token env).2.2) := by
  refine ⟨?_, ?_, ?_⟩
  · intro t hgf
    rw [getToken_hit k env t hrepo hgf]
    refine ⟨rfl, ?_⟩
    simp
  · intro hmem
    rcases hgf : env.repoGetFast with ⟨gf1, gf2⟩
    cases gf2 with
    | none =>
      cases gf1 with
      | some t =>
        rw [getToken_hit k env t hrepo hgf] at hmem
        simp at hmem
      | none =>
        refine ⟨Or.inl rfl, ?_⟩
        have htr : tokenFromRepo k env =
            (none, [Event.repoLock, Event.repoGet, Event.repoUnlock]) := by
          simp [tokenFromRepo, hrepo, hgf]
        rcases hgl : env.repoGetLocked with ⟨gl1, gl2⟩
        cases gl2 with
        | some e => rfl
        | none =>
          unfold getToken at hmem
          rw [htr, hrepo, htok, hgl] at hmem
          simp at hmem
    | some e =>
      refine ⟨Or.inr rfl, ?_⟩
      have htr := tokenFromRepo_missErr k env e hrepo (by rw [hgf])
      rcases hgl : env.repoGetLocked with ⟨gl1, gl2⟩
      cases gl2 with
      | some e2 => rfl
      | none =>
        unfold getToken at hmem
        rw [htr, hrepo, htok, hgl] at hmem
        simp at hmem
  · intro t hgf hc hv
    have hT := Token_empty_adopt k env t k
      [Event.repoLock, Event.repoGet, Event.repoUnlock] none htok
      (getToken_hit k env t hrepo hgf)
    rw [hT]
    have hv2 : validateToken ({ k with token := some t } : TokenKeeper).token env.now ≠ none := hv
    cases hvv : validateToken ({ k with token := some t } : TokenKeeper).token env.now with
    | none => exact absurd hvv hv2
    | some er =>
      rcases hrr : env.refreshRes with ⟨r1, r2⟩
      cases r2 with
      | some E =>
        rw [tokenPhase2_refresh_err _ env er E hvv hc (by rw [hrr])]
        simp
      | none =>
        rw [tokenPhase2_refresh_ok _ env er r1 hvv hc hrr]
        simp

theorem validateToken_none_validateErr (t : TokenData) (now : Nat)
    (h : validateToken (some t) now = none) : t.validateErr = none := by
  cases hve : t.validateErr with
  | none => rfl
  | some e =>
    simp only [validateToken, hve] at h
    exact h

theorem tokenPhase2_panic (k : TokenKeeper) (env : Env) (er : Err)
    (hv : validateToken k.token env.now = some er) (hc : k.hasClient = false) :
    tokenPhase2 k env = (Outcome.panicked, k, []) := by
  unfold tokenPhase2
  rw [hv, hc]
  rfl

/-- The possible results of `tokenPhase2`. -/
theorem tokenPhase2_cases (k : TokenKeeper) (env : Env) :
    (tokenPhase2 k env).1 = Outcome.panicked ∨
    ((tokenPhase2 k env).1 = Outcome.ret k.token ∧
      validateToken k.token env.now = none) ∨
    (tokenPhase2 k env).1 = Outcome.ret env.refreshRes.1 ∨
    (∃ E, env.refreshRes.2 = some E ∧
      (tokenPhase2 k env).1 =
        Outcome.ret (some (invalidToken
          (Err.wrap Err.clientRefreshTokenFailed E) env.now))) := by
  cases hv : validateToken k.token env.now with
  | none =>
    refine Or.inr (Or.inl ⟨?_, rfl⟩)
    rw [tokenPhase2_valid k env hv]
  | some er =>
    cases hc : k.hasClient with
    | false =>
      left
      rw [tokenPhase2_panic k env er hv hc]
    | true =>
      rcases hrr : env.refreshRes with ⟨r1, r2⟩
      cases r2 with
      | none =>
        refine Or.inr (Or.inr (Or.inl ?_))
        rw [tokenPhase2_refresh_ok k env er r1 hv hc hrr]
      | some E =>
        refine Or.inr (Or.inr (Or.inr ⟨E, rfl, ?_⟩))
        rw [tokenPhase2_refresh_err k env er E hv hc (by rw [hrr])]

/-- `tokenPhase2` never calls `Client.NewToken`. -/
theorem tokenPhase2_no_clientNew (k : TokenKeeper) (env : Env) :
    Event.clientNew ∉ (tokenPhase2 k env).2.2 := by
  unfold tokenPhase2 storeToken
  split
  · simp
  · split
    · split
      · simp
      · split <;> simp
    · simp

theorem tokenFromClient_err (k : TokenKeeper) (env : Env) (E : Err)
    (hc : k.hasClient = true) (hnt : env.newTokenRes.2 = some E) :
    tokenFromClient k env =
      (Outcome.ret (none, some E), k, [Event.clientNew]) := by
  rcases hp : env.newTokenRes with ⟨n1, n2⟩
  rw [hp] at hnt
  simp at hnt
  subst hnt
  unfold tokenFromClient
  rw [hc, hp]
  cases n1 <;> rfl

theorem tokenFromClient_newInvalid (k : TokenKeeper) (env : Env)
    (t : TokenData) (e : Err)
    (hc : k.hasClient = true) (hnt : env.newTokenRes = (some t, none))
    (hve : t.validateErr = some e) :
    tokenFromClient k env =
      (Outcome.ret (some t, none), k, [Event.clientNew]) := by
  unfold tokenFromClient
  rw [hc, hnt]
  simp [hve]

theorem tokenFromClient_trace_hasNew (k : TokenKeeper) (env : Env)
    (hc : k.hasClient = true) :
    Event.clientNew ∈ (tokenFromClient k env).2.2 := by
  unfold tokenFromClient storeToken
  rw [hc]
  rcases hp : env.newTokenRes with ⟨n1, n2⟩
  cases n2 with
  | some E => simp
  | none =>
    cases n1 with
    | none => simp
    | some t =>
      by_cases hve : t.validateErr = none <;> simp [hve]

theorem Token_empty_panic (k : TokenKeeper) (env : Env)
    (k1 : TokenKeeper) (evs1 : List Event) (htok : k.token = none)
    (hg : getToken k env = (Outcome.panicked, k1, evs1)) :
    k.Token env = (Outcome.panicked, k1, evs1) := by
  unfold TokenKeeper.Token
  rw [htok, hg]

theorem Token_trace_of_getToken (k : TokenKeeper) (env : Env) (ev : Event)
    (htok : k.token = none) (hm : ev ∈ (getToken k env).2.2) :
    ev ∈ (k.Token env).2.2 := by
  rcases hg : getToken k env with ⟨res, k1, evs1⟩
  rw [hg] at hm
  cases res with
  | panicked =>
    rw [Token_empty_panic k env k1 evs1 htok hg]
    exact hm
  | ret a =>
    rcases a with ⟨t0, e0⟩
    cases t0 with
    | none =>
      rw [Token_empty_fail k env e0 k1 evs1 htok hg]
      exact hm
    | some t =>
      rw [Token_empty_adopt k env t k1 evs1 e0 htok hg]
      exact List.mem_append_left _ hm

theorem getToken_client_err (k : TokenKeeper) (env : Env) (E : Err)
    (htok : k.token = none) (hc : k.hasClient = true)
    (hnt : env.newTokenRes.2 = some E)
    (hmiss : k.hasRepo = false ∨
      ((env.repoGetFast.1 = none ∨ (env.repoGetFast.2).isSome = true) ∧
        (env.repoGetLocked.2).isSome = true)) :
    ∃ evs, getToken k env = (Outcome.ret (none, some E), k, evs) := by
  have htfc := tokenFromClient_err k env E hc hnt
  by_cases hr : k.hasRepo = true
  · have hfall : (env.repoGetFast.1 = none ∨ (env.repoGetFast.2).isSome = true) ∧
        (env.repoGetLocked.2).isSome = true := by
      cases hmiss with
      | inl h =>
        rw [h] at hr
        cases hr
      | inr h => exact h
    obtain ⟨hfmiss, hlsome⟩ := hfall
    have htr : tokenFromRepo k env =
        (none, [Event.repoLock, Event.repoGet, Event.repoUnlock]) := by
      rcases hgf : env.repoGetFast with ⟨gf1, gf2⟩
      cases gf2 with
      | some e => exact tokenFromRepo_missErr k env e hr (by rw [hgf])
      | none =>
        cases gf1 with
        | none => simp [tokenFromRepo, hr, hgf]
        | some t =>
          rw [hgf] at hfmiss
          simp at hfmiss
    rcases hgl : env.repoGetLocked with ⟨gl1, gl2⟩
    cases gl2 with
    | none =>
      rw [hgl] at hlsome
      simp at hlsome
    | some e2 =>
      refine ⟨[Event.repoLock, Event.repoGet, Event.repoUnlock, Event.repoLock,
        Event.repoGet, Event.clientNew, Event.repoUnlock], ?_⟩
      unfold getToken
      rw [htr, hr, htok, hgl, htfc]
      cases gl1 <;> rfl
  · have hrf : k.hasRepo = false := by
      cases hh : k.hasRepo
      · rfl
      · exact absurd hh hr
    refine ⟨[Event.clientNew], ?_⟩
    unfold getToken
    have htr : tokenFromRepo k env = (none, []) := by
      unfold tokenFromRepo
      rw [hrf]
      rfl
    rw [htr, hrf, htfc]
    rfl

theorem getToken_fallback_callsNew (k : TokenKeeper) (env : Env)
    (htok : k.token = none) (hc : k.hasClient = true)
    (hr : k.hasRepo = true)
    (hgf2 : (env.repoGetFast.2).isSome = true)
    (hgl2 : (env.repoGetLocked.2).isSome = true) :
    Event.clientNew ∈ (getToken k env).2.2 := by
  obtain ⟨e, hgf⟩ := Option.isSome_iff_exists.mp hgf2
  have htr := tokenFromRepo_missErr k env e hr hgf
  rcases hgl : env.repoGetLocked with ⟨gl1, gl2⟩
  cases gl2 with
  | none =>
    rw [hgl] at hgl2
    simp at hgl2
  | some e2 =>
    unfold getToken
    rw [htr, hr, htok, hgl]
    have hmem := tokenFromClient_trace_hasNew k env hc
    simp [List.mem_append, hmem]

/-- Environment: both repo reads fail, `Client.NewToken` fails with
`clientErr "boom"`, `now = 5`. -/
def envNewTokenFails : Env :=
  { now := 5, repoGetFast := (none, some (Err.repoErr "no token")),
    repoGetLocked := (none, some (Err.repoErr "no token")),
    newTokenRes := (none, some (Err.clientErr "boom")),
    refreshRes := (none, some (Err.clientErr "boom")),
    repoLockErr := none, repoStoreErr := none }

/-- Claim C6: on a Client failure with underlying error `E`, `Token()`
returns an invalid token - `String()` empty, `Expires() = Created()`,
`Validate()` returning the phase sentinel (`ErrClientNewTokenFailed` for
issuance, `ErrClientRefreshTokenFailed` for refresh) wrapped around `E` -
and the cached-token field is unchanged by the call: still empty after an
issuance failure, and still the stale token after a refresh failure, so a
subsequent call takes the refresh path and never calls `Client.NewToken`. -/
theorem C6_client_failure_invalid (k : TokenKeeper) (env : Env) (E : Err) :
    (k.token = none → k.hasClient = true → env.newTokenRes.2 = some E →
      (k.hasRepo = false ∨
        ((env.repoGetFast.1 = none ∨ (env.repoGetFast.2).isSome = true) ∧
          (env.repoGetLocked.2).isSome = true)) →
      (k.Token env).1 = Outcome.ret (some (invalidToken
        (Err.wrap Err.clientNewTokenFailed E) env.now)) ∧
      (k.Token env).2.1.token = none) ∧
    (∀ t, k.token = some t → validateToken (some t) env.now ≠ none →
      k.hasClient = true → env.refreshRes.2 = some E →
      (k.Token env).1 = Outcome.ret (some (invalidToken
        (Err.wrap Err.clientRefreshTokenFailed E) env.now)) ∧
      (k.Token env).2.1.token = some t ∧
      (∀ env2, Event.clientNew ∉ ((k.Token env).2.1.Token env2).2.2)) ∧
    (∀ e now2, (invalidToken e now2).str = "" ∧
      (invalidToken e now2).expires = (invalidToken e now2).created ∧
      (invalidToken e now2).validateErr = some e) := by
  refine ⟨?_, ?_, fun e n => ⟨rfl, rfl, rfl⟩⟩
  · intro htok hc hnt hmiss
    obtain ⟨evs, hg⟩ := getToken_client_err k env E htok hc hnt hmiss
    rw [Token_empty_fail k env (some E) k evs htok hg]
    exact ⟨rfl, htok⟩
  · intro t htok hv hc hrr2
    cases hvv : validateToken k.token env.now with
    | none =>
      rw [htok] at hvv
      exact absurd hvv hv
    | some er =>
      have hph := tokenPhase2_refresh_err k env er E hvv hc hrr2
      rw [Token_cached k t env htok, hph]
      refine ⟨rfl, htok, ?_⟩
      intro env2
      rw [Token_cached k t env2 htok]
      exact tokenPhase2_no_clientNew k env2

/-- Witness for C6: an issuance failure on a keeper with empty cache and a
refresh failure on a keeper holding the stale `staleTok`, both with
underlying error `clientErr "boom"`. -/
theorem C6_client_failure_invalid_witness :
    ((keeperEmptyWithRepo.Token envNewTokenFails).1 = Outcome.ret (some (invalidToken
        (Err.wrap Err.clientNewTokenFailed (Err.clientErr "boom")) envNewTokenFails.now)) ∧
      (keeperEmptyWithRepo.Token envNewTokenFails).2.1.token = none) ∧
    ((keeperStaleWithRepo.Token envRepoStaleRefreshBad).1 = Outcome.ret (some (invalidToken
        (Err.wrap Err.clientRefreshTokenFailed (Err.clientErr "boom")) envRepoStaleRefreshBad.now)) ∧
      (keeperStaleWithRepo.Token envRepoStaleRefreshBad).2.1.token = some staleTok) := by
  constructor
  · exact (C6_client_failure_invalid keeperEmptyWithRepo envNewTokenFails
      (Err.clientErr "boom")).1 rfl rfl rfl (Or.inr (by decide))
  · have h := (C6_client_failure_invalid keeperStaleWithRepo envRepoStaleRefreshBad
      (Err.clientErr "boom")).2.1 staleTok rfl (by decide) rfl rfl
    exact ⟨h.1, h.2.1⟩

/-- Witness for the amended C4 at `keeperEmptyWithRepo` and
`envRepoStaleRefreshBad`. -/
theorem C4_amended_repo_adoption_witness :
    (getToken keeperEmptyWithRepo envRepoStaleRefreshBad).1 =
      Outcome.ret (some staleTok, none) ∧
    Event.clientRefresh ∈
      (keeperEmptyWithRepo.Token envRepoStaleRefreshBad).2.2 :=
  ⟨((C4_amended_repo_adoption keeperEmptyWithRepo envRepoStaleRefreshBad
      rfl rfl).1 staleTok rfl).1,
    (C4_amended_repo_adoption keeperEmptyWithRepo envRepoStaleRefreshBad
      rfl rfl).2.2 staleTok rfl rfl (by decide)⟩

/-- Claim C10: when `Client.NewToken` succeeds but the returned token's own
`Validate()` reports an error, the keeper does not pass that token to
`Repo.StoreToken`, yet still adopts it as the cached token, and the same
`Token()` call immediately attempts `Client.RefreshToken`; if that refresh
fails, the self-invalid fresh token remains the cached token, and in no case
is it written to shared storage. -/
theorem C10_self_invalid_fresh_token (k : TokenKeeper) (env : Env)
    (t : TokenData) (e : Err)
    (htok : k.token = none) (hc : k.hasClient = true)
    (hnt : env.newTokenRes = (some t, none)) (hve : t.validateErr = some e)
    (hmiss : k.hasRepo = false ∨
      ((env.repoGetFast.1 = none ∨ (env.repoGetFast.2).isSome = true) ∧
        (env.repoGetLocked.2).isSome = true))
    (hrne : env.refreshRes.1 ≠ some t) :
    Event.repoStore (some t) ∉ (k.Token env).2.2 ∧
    Event.clientRefresh ∈ (k.Token env).2.2 ∧
    (∀ E, env.refreshRes.2 = some E → (k.Token env).2.1.token = some t) := by
  have htfc := tokenFromClient_newInvalid k env t e hc hnt hve
  have hvfail : validateToken (some t) env.now = some e := by
    simp [validateToken, hve]
  have hgeq : ∃ evs, getToken k env = (Outcome.ret (some t, none), k, evs) ∧
      Event.repoStore (some t) ∉ evs := by
    by_cases hr : k.hasRepo = true
    · have hfall : (env.repoGetFast.1 = none ∨ (env.repoGetFast.2).isSome = true) ∧
          (env.repoGetLocked.2).isSome = true := by
        cases hmiss with
        | inl h =>
          rw [h] at hr
          cases hr
        | inr h => exact h
      obtain ⟨hfmiss, hlsome⟩ := hfall
      have htr : tokenFromRepo k env =
          (none, [Event.repoLock, Event.repoGet, Event.repoUnlock]) := by
        rcases hgf : env.repoGetFast with ⟨gf1, gf2⟩
        cases gf2 with
        | some e2 => exact tokenFromRepo_missErr k env e2 hr (by rw [hgf])
        | none =>
          cases gf1 with
          | none => simp [tokenFromRepo, hr, hgf]
          | some t2 =>
            rw [hgf] at hfmiss
            simp at hfmiss
      rcases hgl : env.repoGetLocked with ⟨gl1, gl2⟩
      cases gl2 with
      | none =>
        rw [hgl] at hlsome
        simp at hlsome
      | some e2 =>
        refine ⟨[Event.repoLock, Event.repoGet, Event.repoUnlock, Event.repoLock,
          Event.repoGet, Event.clientNew, Event.repoUnlock], ?_, by simp⟩
        unfold getToken
        rw [htr, hr, htok, hgl, htfc]
        cases gl1 <;> rfl
    · have hrf : k.hasRepo = false := by
        cases hh : k.hasRepo
        · rfl
        · exact absurd hh hr
      refine ⟨[Event.clientNew], ?_, by simp⟩
      unfold getToken
      have htr : tokenFromRepo k env = (none, []) := by
        unfold tokenFromRepo
        rw [hrf]
        rfl
      rw [htr, hrf, htfc]
      rfl
  obtain ⟨evs, hg, hnostore⟩ := hgeq
  have hT := Token_empty_adopt k env t k evs none htok hg
  rw [hT]
  have hv2 : validateToken ({ k with token := some t } : TokenKeeper).token env.now =
      some e := hvfail
  rcases hrr : env.refreshRes with ⟨r1, r2⟩
  cases r2 with
  | some E =>
    have hph := tokenPhase2_refresh_err { k with token := some t } env e E hv2 hc
      (by rw [hrr])
    rw [hph]
    refine ⟨?_, ?_, ?_⟩
    · simp [List.mem_append, hnostore]
    · simp [List.mem_append]
    · intro E2 _
      rfl
  | none =>
    have hrne2 : r1 ≠ some t := by
      rw [hrr] at hrne
      exact hrne
    have hph := tokenPhase2_refresh_ok { k with token := some t } env e r1 hv2 hc hrr
    rw [hph]
    refine ⟨?_, ?_, ?_⟩
    · simp only [List.mem_append, List.mem_cons]
      intro hcon
      rcases hcon with h1 | h2
      · exact hnostore h1
      · rcases h2 with h3 | h4
        · cases h3
        · by_cases hr : k.hasRepo = true
          · rw [hr] at h4
            simp at h4
            exact hrne2 (by rw [h4])
          · have hrf : k.hasRepo = false := by
              cases hh : k.hasRepo
              · rfl
              · exact absurd hh hr
            rw [hrf] at h4
            simp at h4
    · simp [List.mem_append]
    · intro E2 hE2
      cases hE2

/-- A client-issued token whose own `Validate()` fails. -/
def selfBadTok : TokenData :=
  { str := "bad", created := 5, expires := 9,
    validateErr := some (Err.tokenErr "sig") }

/-- Environment: both repo reads fail; `Client.NewToken` succeeds with
`selfBadTok`; the refresh fails. -/
def envSelfBadTok : Env :=
  { now := 5, repoGetFast := (none, some (Err.repoErr "no token")),
    repoGetLocked := (none, some (Err.repoErr "no token")),
    newTokenRes := (some selfBadTok, none),
    refreshRes := (none, some (Err.clientErr "rfail")),
    repoLockErr := none, repoStoreErr := none }

/-- Witness for C10 at `keeperEmptyWithRepo` and `envSelfBadTok`. -/
theorem C10_self_invalid_fresh_token_witness :
    Event.repoStore (some selfBadTok) ∉
      (keeperEmptyWithRepo.Token envSelfBadTok).2.2 ∧
    Event.clientRefresh ∈ (keeperEmptyWithRepo.Token envSelfBadTok).2.2 ∧
    (keeperEmptyWithRepo.Token envSelfBadTok).2.1.token = some selfBadTok := by
  have h := C10_self_invalid_fresh_token keeperEmptyWithRepo envSelfBadTok
    selfBadTok (Err.tokenErr "sig") rfl rfl rfl rfl
    (Or.inr (by decide)) (by decide)
  exact ⟨h.1, h.2.1, h.2.2 (Err.clientErr "rfail") rfl⟩

-- Result-shape lemmas used by the repo-error-softness claim.

theorem tokenFromClient_shape (k : TokenKeeper) (env : Env) :
    (tokenFromClient k env).1 = Outcome.panicked ∨
    (∃ t, (tokenFromClient k env).1 = Outcome.ret (some t, none)) ∨
    (tokenFromClient k env).1 = Outcome.ret (none, env.newTokenRes.2) ∨
    (tokenFromClient k env).1 = Outcome.ret (none, some Err.clientIsNil) := by
  unfold tokenFromClient
  by_cases hc : k.hasClient = true
  · rw [hc]
    rcases hnt : env.newTokenRes with ⟨n1, n2⟩
    cases n2 with
    | some E =>
      refine Or.inr (Or.inr (Or.inl ?_))
      cases n1 <;> rfl
    | none =>
      cases n1 with
      | none => exact Or.inl rfl
      | some tt =>
        by_cases hve : tt.validateErr = none
        · exact Or.inr (Or.inl ⟨tt, by simp [hve]⟩)
        · exact Or.inr (Or.inl ⟨tt, by simp [hve]⟩)
  · have hcf : k.hasClient = false := by
      cases hh : k.hasClient
      · rfl
      · exact absurd hh hc
    rw [hcf]
    exact Or.inr (Or.inr (Or.inr rfl))

theorem getToken_shape (k : TokenKeeper) (env : Env) :
    (getToken k env).1 = Outcome.panicked ∨
    (∃ t, (getToken k env).1 = Outcome.ret (some t, none)) ∨
    (getToken k env).1 = Outcome.ret (none, env.newTokenRes.2) ∨
    (getToken k env).1 = Outcome.ret (none, some Err.clientIsNil) ∨
    (getToken k env).1 = Outcome.ret (none, none) := by
  unfold getToken
  rcases htr : tokenFromRepo k env with ⟨t0, evs0⟩
  cases t0 with
  | some t => exact Or.inr (Or.inl ⟨t, rfl⟩)
  | none =>
    by_cases hr : k.hasRepo = true
    · rw [hr]
      cases htk : k.token with
      | some t => exact Or.inr (Or.inl ⟨t, rfl⟩)
      | none =>
        rcases hgl : env.repoGetLocked with ⟨gl1, gl2⟩
        cases gl2 with
        | none =>
          cases gl1 with
          | some t => exact Or.inr (Or.inl ⟨t, rfl⟩)
          | none => exact Or.inr (Or.inr (Or.inr (Or.inr rfl)))
        | some e2 =>
          rcases tokenFromClient_shape k env with h | ⟨t, h⟩ | h | h
          · exact Or.inl h
          · exact Or.inr (Or.inl ⟨t, h⟩)
          · exact Or.inr (Or.inr (Or.inl h))
          · exact Or.inr (Or.inr (Or.inr (Or.inl h)))
    · have hrf : k.hasRepo = false := by
        cases hh : k.hasRepo
        · rfl
        · exact absurd hh hr
      rw [hrf]
      rcases tokenFromClient_shape k env with h | ⟨t, h⟩ | h | h
      · exact Or.inl h
      · exact Or.inr (Or.inl ⟨t, h⟩)
      · exact Or.inr (Or.inr (Or.inl h))
      · exact Or.inr (Or.inr (Or.inr (Or.inl h)))

/-- The possible results of a full `Token()` execution: a panic, a token that
passes its own validation, the refresh result, an invalid token wrapping the
refresh sentinel around the refresh error, or an invalid token wrapping the
issuance sentinel around either the `NewToken` error, `ErrClientIsNil`, or a
nil error - never a value built from a Repo error. -/
theorem Token_shape (k : TokenKeeper) (env : Env) :
    (k.Token env).1 = Outcome.panicked ∨
    (∃ t, (k.Token env).1 = Outcome.ret (some t) ∧ t.validateErr = none) ∨
    (k.Token env).1 = Outcome.ret env.refreshRes.1 ∨
    (∃ E, env.refreshRes.2 = some E ∧ (k.Token env).1 =
      Outcome.ret (some (invalidToken
        (Err.wrap Err.clientRefreshTokenFailed E) env.now))) ∨
    (∃ e, (e = env.newTokenRes.2 ∨ e = some Err.clientIsNil ∨ e = none) ∧
      (k.Token env).1 = Outcome.ret (some (invalidToken
        (wrapErr Err.clientNewTokenFailed e) env.now))) := by
  cases htk : k.token with
  | some t =>
    rw [Token_cached k t env htk]
    rcases tokenPhase2_cases k env with h | ⟨h, hv⟩ | h | ⟨E, hE, h⟩
    · exact Or.inl h
    · refine Or.inr (Or.inl ⟨t, ?_, ?_⟩)
      · rw [h, htk]
      · exact validateToken_none_validateErr t env.now (htk ▸ hv)
    · exact Or.inr (Or.inr (Or.inl h))
    · exact Or.inr (Or.inr (Or.inr (Or.inl ⟨E, hE, h⟩)))
  | none =>
    rcases hg : getToken k env with ⟨res, k1, evs1⟩
    have hsh := getToken_shape k env
    rw [hg] at hsh
    cases res with
    | panicked =>
      rw [Token_empty_panic k env k1 evs1 htk hg]
      exact Or.inl rfl
    | ret a =>
      rcases a with ⟨t0, e0⟩
      cases t0 with
      | none =>
        rw [Token_empty_fail k env e0 k1 evs1 htk hg]
        refine Or.inr (Or.inr (Or.inr (Or.inr ⟨e0, ?_, rfl⟩)))
        rcases hsh with h | ⟨t, h⟩ | h | h | h
        · simp at h
        · simp at h
        · simp at h
          exact Or.inl h
        · simp at h
          exact Or.inr (Or.inl h)
        · simp at h
          exact Or.inr (Or.inr h)
      | some t =>
        rw [Token_empty_adopt k env t k1 evs1 e0 htk hg]
        rcases tokenPhase2_cases { k1 with token := some t } env with
          h | ⟨h, hv⟩ | h | ⟨E, hE, h⟩
        · exact Or.inl h
        · exact Or.inr (Or.inl ⟨t, h, validateToken_none_validateErr t env.now hv⟩)
        · exact Or.inr (Or.inr (Or.inl h))
        · exact Or.inr (Or.inr (Or.inr (Or.inl ⟨E, hE, h⟩)))

/-- No `repoErr` constructor occurs anywhere in the error. -/
def errNoRepo : Err → Bool
  | Err.repoErr _ => false
  | Err.wrap s e => errNoRepo s && errNoRepo e
  | Err.wrapNil s => errNoRepo s
  | _ => true

/-- No `repoErr` occurs in the (possibly nil) error. -/
def optErrNoRepo : Option Err → Bool
  | none => true
  | some e => errNoRepo e

/-- No `repoErr` occurs in the (possibly nil) token's validation error. -/
def tokNoRepo : Option TokenData → Bool
  | none => true
  | some t => optErrNoRepo t.validateErr

/-- Claim C8: Repo and lock failures are soft.  Provided the Client's own
outcomes carry no Repo-operation error (they are produced by the Client, not
the Repo), the value returned by `Token()` never contains a Repo error -
whatever errors `Repo.Lock`, `Repo.GetToken` or `Repo.StoreToken` return
(the keeper discards the `Lock` error and only logs the `StoreToken` error,
so they do not even reach the result; the `GetToken` errors steer control
flow only); and when both Repo reads fail while the cache is empty, the
keeper falls back to calling `Client.NewToken` directly. -/
theorem C8_repo_errors_soft (k : TokenKeeper) (env : Env)
    (hnt : optErrNoRepo env.newTokenRes.2 = true)
    (hrf2 : optErrNoRepo env.refreshRes.2 = true)
    (hrf1 : tokNoRepo env.refreshRes.1 = true) :
    (∀ r, (k.Token env).1 = Outcome.ret r → tokNoRepo r = true) ∧
    (k.token = none → k.hasClient = true → k.hasRepo = true →
      (env.repoGetFast.2).isSome = true → (env.repoGetLocked.2).isSome = true →
      Event.clientNew ∈ (k.Token env).2.2) := by
  constructor
  · intro r hr
    rcases Token_shape k env with h | ⟨t, h, hve⟩ | h | ⟨E, hE, h⟩ | ⟨e, hsh, h⟩
    · rw [h] at hr
      cases hr
    · rw [h] at hr
      injection hr with h2
      rw [← h2]
      simp [tokNoRepo, optErrNoRepo, hve]
    · rw [h] at hr
      injection hr with h2
      rw [← h2]
      exact hrf1
    · rw [h] at hr
      injection hr with h2
      rw [← h2]
      rw [hE] at hrf2
      simp [tokNoRepo, optErrNoRepo, invalidToken, errNoRepo]
      exact hrf2
    · rw [h] at hr
      injection hr with h2
      rw [← h2]
      rcases hsh with h3 | h3 | h3
      · rw [h3]
        cases hcase : env.newTokenRes.2 with
        | none => simp [tokNoRepo, optErrNoRepo, invalidToken, wrapErr, errNoRepo]
        | some e2 =>
          rw [hcase] at hnt
          simp [tokNoRepo, optErrNoRepo, invalidToken, wrapErr, errNoRepo]
          exact hnt
      · rw [h3]
        simp [tokNoRepo, optErrNoRepo, invalidToken, wrapErr, errNoRepo]
      · rw [h3]
        simp [tokNoRepo, optErrNoRepo, invalidToken, wrapErr, errNoRepo]
  · intro htok hc hr hf hl
    exact Token_trace_of_getToken k env Event.clientNew htok
      (getToken_fallback_callsNew k env htok hc hr hf hl)

/-- Witness for C8 at `keeperEmptyWithRepo` and `envNewTokenFails`. -/
theorem C8_repo_errors_soft_witness :
    tokNoRepo (some (invalidToken
      (Err.wrap Err.clientNewTokenFailed (Err.clientErr "boom")) 5)) = true ∧
    Event.clientNew ∈ (keeperEmptyWithRepo.Token envNewTokenFails).2.2 :=
  ⟨(C8_repo_errors_soft keeperEmptyWithRepo envNewTokenFails (by decide)
      (by decide) (by decide)).1
      (some (invalidToken
        (Err.wrap Err.clientNewTokenFailed (Err.clientErr "boom")) 5))
      (by decide),
    (C8_repo_errors_soft keeperEmptyWithRepo envNewTokenFails (by decide)
      (by decide) (by decide)).2 rfl rfl rfl (by decide) (by decide)⟩

-- The single-flight models.

/-- The token issued by the in-process model's client on its i-th call. -/
def seqTok (i : Nat) : TokenData :=
  { str := toString i, created := 0, expires := 10, validateErr := none }

/-- Environment of the i-th sequential call: no repo is attached by the
keeper under test (the repo fields are unused), the slow client answers its
i-th token, and the clock reads 0 throughout. -/
def seqEnv (i : Nat) : Env :=
  { now := 0, repoGetFast := (none, some (Err.repoErr "unused")),
    repoGetLocked := (none, some (Err.repoErr "unused")),
    newTokenRes := (some (seqTok i), none),
    refreshRes := (none, some (Err.clientErr "unused")),
    repoLockErr := none, repoStoreErr := none }

/-- `n` sequential `Token()` calls starting at call index `i`.  The
process-local mutex is held for the whole body of `Token()`, so N concurrent
in-process callers execute their bodies in some sequential order; this is
that order. -/
def runCalls (k : TokenKeeper) (i : Nat) :
    Nat → List (Outcome (Option TokenData)) × TokenKeeper × List Event
  | 0 => ([], k, [])
  | n + 1 =>
    match k.Token (seqEnv i) with
    | (r, k1, evs1) =>
      match runCalls k1 (i + 1) n with
      | (rs, k2, evs2) => (r :: rs, k2, evs1 ++ evs2)

theorem runCalls_steady (t : TokenData) (hve : t.validateErr = none)
    (k : TokenKeeper) (htk : k.token = some t) (i n : Nat) :
    runCalls k i n = (List.replicate n (Outcome.ret (some t)), k, []) := by
  induction n generalizing i with
  | zero => rfl
  | succ m ih =>
    have hv : validateToken k.token (seqEnv i).now = none := by
      rw [htk]
      simp [validateToken, hve, seqEnv]
    have h1 : k.Token (seqEnv i) = (Outcome.ret (some t), k, []) := by
      rw [Token_cached k t (seqEnv i) htk, tokenPhase2_valid k (seqEnv i) hv, htk]
    show runCalls k i (m + 1) = _
    unfold runCalls
    rw [h1]
    show (match runCalls k (i + 1) m with
      | (rs, k2, evs2) => (Outcome.ret (some t) :: rs, k2, [] ++ evs2)) =
      (List.replicate (m + 1) (Outcome.ret (some t)), k, [])
    rw [ih (i + 1)]
    simp [List.replicate_succ]

/-- A pod's progress through the empty-cache protocol: before its fast-path
repo read, between the fast path and the lock-guarded section, or finished
holding a token. -/
inductive PState where
  | start
  | afterFast
  | done (t : TokenData)
deriving DecidableEq

/-- Cross-process system state: the Repo-held shared token, the total number
of `Client.NewToken` calls made by any pod, and each pod's progress. -/
structure Sys where
  repoTok : Option TokenData
  calls : Nat
  procs : Nat → PState

/-- Initial state: empty Repo, no client call yet, every pod before its fast
path. -/
def initSys : Sys :=
  { repoTok := none, calls := 0, procs := fun _ => PState.start }

/-- One atomic lock-guarded section of pod `i` against the shared Repo
(`tok i` is the token pod i's own client would issue).  In the source, both
the fast path (`tokenFromRepo` is `Lock`; `GetToken`; `Unlock`) and the
re-check / `NewToken` / `StoreToken` block of `getToken` execute entirely
under the one distributed Repo lock, so a cross-process execution is exactly
an interleaving of these atomic sections. -/
inductive Step (tok : Nat → TokenData) : Sys → Sys → Prop where
  | fastHit (s : Sys) (i : Nat) (t : TokenData) :
      s.procs i = PState.start → s.repoTok = some t →
      Step tok s { s with
        procs := fun j => if j = i then PState.done t else s.procs j }
  | fastMiss (s : Sys) (i : Nat) :
      s.procs i = PState.start → s.repoTok = none →
      Step tok s { s with
        procs := fun j => if j = i then PState.afterFast else s.procs j }
  | lockedHit (s : Sys) (i : Nat) (t : TokenData) :
      s.procs i = PState.afterFast → s.repoTok = some t →
      Step tok s { s with
        procs := fun j => if j = i then PState.done t else s.procs j }
  | lockedFetch (s : Sys) (i : Nat) :
      s.procs i = PState.afterFast → s.repoTok = none →
      Step tok s (Sys.mk (some (tok i)) (s.calls + 1)
        (fun j => if j = i then PState.done (tok i) else s.procs j))

/-- States reachable from `initSys` by interleaving pod sections. -/
inductive Reach (tok : Nat → TokenData) : Sys → Prop where
  | init : Reach tok initSys
  | step (s s2 : Sys) : Reach tok s → Step tok s s2 → Reach tok s2

/-- The cross-process single-flight invariant: at most one `NewToken` call
ever happens, the Repo stays empty until it does, and every finished pod
holds exactly the Repo-stored token. -/
def SysInv (s : Sys) : Prop :=
  s.calls ≤ 1 ∧
  (s.repoTok = none → s.calls = 0 ∧ ∀ i t, s.procs i ≠ PState.done t) ∧
  (∀ t, s.repoTok = some t → ∀ i u, s.procs i = PState.done u → u = t)

theorem reach_inv (tok : Nat → TokenData) (s : Sys) (h : Reach tok s) :
    SysInv s := by
  induction h with
  | init =>
    refine ⟨Nat.zero_le 1, fun _ => ⟨rfl, fun i t => ?_⟩, fun t h2 => ?_⟩
    · intro hcon
      cases hcon
    · cases h2
  | step s s2 hr hstep ih =>
    obtain ⟨ih1, ih2, ih3⟩ := ih
    cases hstep with
    | fastHit i t hp hrt =>
      refine ⟨ih1, ?_, ?_⟩
      · intro hnone
        have hnone2 : s.repoTok = none := hnone
        rw [hnone2] at hrt
        cases hrt
      · intro u hu j v hj
        have hu2 : s.repoTok = some u := hu
        have hj2 : (if j = i then PState.done t else s.procs j) =
            PState.done v := hj
        by_cases hji : j = i
        · rw [if_pos hji] at hj2
          cases hj2
          rw [hu2] at hrt
          injection hrt with h3
          exact h3.symm
        · rw [if_neg hji] at hj2
          exact ih3 u hu2 j v hj2
    | fastMiss i hp hrt =>
      refine ⟨ih1, ?_, ?_⟩
      · intro hnone
        have hnone2 : s.repoTok = none := hnone
        refine ⟨(ih2 hnone2).1, fun j v => ?_⟩
        intro hj
        have hj2 : (if j = i then PState.afterFast else s.procs j) =
            PState.done v := hj
        by_cases hji : j = i
        · rw [if_pos hji] at hj2
          cases hj2
        · rw [if_neg hji] at hj2
          exact (ih2 hnone2).2 j v hj2
      · intro u hu j v hj
        have hu2 : s.repoTok = some u := hu
        have hj2 : (if j = i then PState.afterFast else s.procs j) =
            PState.done v := hj
        by_cases hji : j = i
        · rw [if_pos hji] at hj2
          cases hj2
        · rw [if_neg hji] at hj2
          exact ih3 u hu2 j v hj2
    | lockedHit i t hp hrt =>
      refine ⟨ih1, ?_, ?_⟩
      · intro hnone
        have hnone2 : s.repoTok = none := hnone
        rw [hnone2] at hrt
        cases hrt
      · intro u hu j v hj
        have hu2 : s.repoTok = some u := hu
        have hj2 : (if j = i then PState.done t else s.procs j) =
            PState.done v := hj
        by_cases hji : j = i
        · rw [if_pos hji] at hj2
          cases hj2
          rw [hu2] at hrt
          injection hrt with h3
          exact h3.symm
        · rw [if_neg hji] at hj2
          exact ih3 u hu2 j v hj2
    | lockedFetch i hp hrt =>
      obtain ⟨hc0, hnd⟩ := ih2 hrt
      refine ⟨?_, ?_, ?_⟩
      · show s.calls + 1 ≤ 1
        omega
      · intro hnone
        have hnone2 : (some (tok i) : Option TokenData) = none := hnone
        cases hnone2
      · intro u hu j v hj
        have hu2 : (some (tok i) : Option TokenData) = some u := hu
        injection hu2 with hu3
        have hj2 : (if j = i then PState.done (tok i) else s.procs j) =
            PState.done v := hj
        by_cases hji : j = i
        · rw [if_pos hji] at hj2
          cases hj2
          exact hu3
        · rw [if_neg hji] at hj2
          exact absurd hj2 (hnd j v)

/-- The keeper state after the first sequential call: client and no repo,
caching the first issued token. -/
def kSeq : TokenKeeper :=
  { hasClient := true, hasRepo := false, token := some (seqTok 0) }

/-- Claim C1: single-flight.  In-process: the local mutex serialises the
bodies of concurrent `Token()` callers, so N concurrent callers on a fresh
keeper with a slow client execute as N sequential calls (`runCalls`): every
caller receives the first client token and `Client.NewToken` is invoked
exactly once in total.  Cross-process: in every interleaving (`Reach`) of
the lock-guarded repo sections of any number of pods that share one Repo and
start with an empty shared token, at most one `Client.NewToken` call is made
in total, and all pods that finish hold the same token value. -/
theorem C1_single_flight :
    (∀ n, 1 ≤ n →
      (∀ r ∈ (runCalls (NewTokenKeeper true) 0 n).1,
        r = Outcome.ret (some (seqTok 0))) ∧
      (runCalls (NewTokenKeeper true) 0 n).2.2.count Event.clientNew = 1) ∧
    (∀ (tok : Nat → TokenData) (s : Sys), Reach tok s →
      s.calls ≤ 1 ∧
      ∀ i j ti tj, s.procs i = PState.done ti → s.procs j = PState.done tj →
        ti = tj) := by
  constructor
  · intro n hn
    obtain ⟨m, rfl⟩ : ∃ m, n = m + 1 := ⟨n - 1, by omega⟩
    have h1 : (NewTokenKeeper true).Token (seqEnv 0) =
        (Outcome.ret (some (seqTok 0)), kSeq, [Event.clientNew]) := by decide
    have h2 := runCalls_steady (seqTok 0) rfl kSeq rfl 1 m
    have hrun : runCalls (NewTokenKeeper true) 0 (m + 1) =
        (Outcome.ret (some (seqTok 0)) ::
          List.replicate m (Outcome.ret (some (seqTok 0))),
          kSeq, [Event.clientNew]) := by
      show runCalls (NewTokenKeeper true) 0 (m + 1) = _
      unfold runCalls
      rw [h1]
      show (match runCalls kSeq 1 m with
        | (rs, k2, evs2) =>
          (Outcome.ret (some (seqTok 0)) :: rs, k2, [Event.clientNew] ++ evs2)) = _
      rw [h2]
      rfl
    constructor
    · intro r hr
      rw [hrun] at hr
      simp only [List.mem_cons] at hr
      rcases hr with h | h
      · exact h
      · exact List.eq_of_mem_replicate h
    · rw [hrun]
      rfl
  · intro tok s h
    obtain ⟨h1, h2, h3⟩ := reach_inv tok s h
    refine ⟨h1, fun i j ti tj hi hj => ?_⟩
    cases hrt : s.repoTok with
    | none => exact absurd hi ((h2 hrt).2 i ti)
    | some t => exact (h3 t hrt i ti hi).trans (h3 t hrt j tj hj).symm

/-- Witness for C1: two sequential in-process calls make exactly one
`NewToken` call, and the initial cross-process state is reachable with at
most one call. -/
theorem C1_single_flight_witness :
    (runCalls (NewTokenKeeper true) 0 2).2.2.count Event.clientNew = 1 ∧
    initSys.calls ≤ 1 :=
  ⟨(C1_single_flight.1 2 (by decide)).2,
    (C1_single_flight.2 (fun _ => seqTok 0) initSys Reach.init).1⟩
